import Mathlib

/-!
Verification of the nosugar budget model (`src/App.tsx`).

The development shallowly embeds the pure core of the application:
the budget model (`estimateDailySugarLimitG` and its factor helpers),
the activity bonus engine (`activitySugarBonusKcal`, `weeklyCappedBonus`,
`applyDailyCap`), the consumption aggregator (`rollupByDay`,
`last7DaysSeries`, the independent today-total), and the CSV ingest
normaliser (`parseCsv`).

Modelling conventions:
  * JavaScript numbers are modelled by `JsNum`: an exact rational for a
    finite double, plus the special values Infinity, -Infinity and NaN.
    Floating-point rounding of finite values is not modelled; negative
    zero is identified with zero.  Fields that the program only ever
    holds finite values in (the coefficient table, ages, gram counts)
    are modelled directly as rationals or integers.
  * Timestamps are epoch milliseconds (`ℤ`); truncation of a timestamp
    to its calendar day (`setHours(0,0,0,0)` followed by taking the ISO
    date) is modelled as floor division by 86400000, i.e. a UTC locale,
    and a calendar-day key is modelled as the resulting day number.
  * `new Date()` (the current instant / current day) is passed in as an
    explicit parameter.
-/

namespace NoSugar

/-- Model of a JavaScript number (IEEE-754 double): an exact rational for a
finite value, or one of the special values Infinity, -Infinity, NaN. -/
inductive JsNum where
  | num (q : ℚ)
  | inf
  | negInf
  | nan
deriving DecidableEq, Repr

/-- JavaScript strict less-than on numbers: every comparison involving NaN
is false. -/
def JsNum.lt : JsNum → JsNum → Bool
  | .nan, _ => false
  | _, .nan => false
  | .num a, .num b => decide (a < b)
  | .num _, .inf => true
  | .num _, .negInf => false
  | .inf, _ => false
  | .negInf, .negInf => false
  | .negInf, _ => true

/-- JavaScript greater-or-equal on numbers: every comparison involving NaN
is false. -/
def JsNum.ge : JsNum → JsNum → Bool
  | .nan, _ => false
  | _, .nan => false
  | .num a, .num b => decide (b ≤ a)
  | .num _, .inf => false
  | .num _, .negInf => true
  | .inf, _ => true
  | .negInf, .negInf => true
  | .negInf, _ => false

/-- JavaScript multiplication: NaN absorbs, and 0 * Infinity is NaN. -/
def JsNum.mul : JsNum → JsNum → JsNum
  | .nan, _ => .nan
  | _, .nan => .nan
  | .num a, .num b => .num (a * b)
  | .num a, .inf => if 0 < a then .inf else if a < 0 then .negInf else .nan
  | .inf, .num a => if 0 < a then .inf else if a < 0 then .negInf else .nan
  | .num a, .negInf => if 0 < a then .negInf else if a < 0 then .inf else .nan
  | .negInf, .num a => if 0 < a then .negInf else if a < 0 then .inf else .nan
  | .inf, .inf => .inf
  | .inf, .negInf => .negInf
  | .negInf, .inf => .negInf
  | .negInf, .negInf => .inf

/-- JavaScript division: NaN absorbs, x/0 is a signed infinity for x ≠ 0,
0/0 and Infinity/Infinity are NaN, finite/Infinity is 0.  The negative-zero
distinction is not modelled (division by zero behaves as division by +0). -/
def JsNum.div : JsNum → JsNum → JsNum
  | .nan, _ => .nan
  | _, .nan => .nan
  | .num a, .num b =>
      if b ≠ 0 then .num (a / b)
      else if 0 < a then .inf else if a < 0 then .negInf else .nan
  | .num _, .inf => .num 0
  | .num _, .negInf => .num 0
  | .inf, .num a => if a < 0 then .negInf else .inf
  | .negInf, .num a => if a < 0 then .inf else .negInf
  | .inf, .inf => .nan
  | .inf, .negInf => .nan
  | .negInf, .inf => .nan
  | .negInf, .negInf => .nan

/-- Model of `Math.round` on a finite value: round half towards positive
infinity, i.e. `⌊q + 1/2⌋`. -/
def jsRound (q : ℚ) : ℤ := ⌊q + 1/2⌋

/-- Model of `Math.round` on a JavaScript number; the special values are
fixed points. -/
def JsNum.round : JsNum → JsNum
  | .num q => .num ((jsRound q : ℤ) : ℚ)
  | .inf => .inf
  | .negInf => .negInf
  | .nan => .nan

/-- Source `clamp(n, lo, hi) = Math.max(lo, Math.min(hi, n))` on finite
values. -/
def clamp (n lo hi : ℚ) : ℚ := max lo (min hi n)

/-- Source `round2(n) = Math.round(n*100)/100` on finite values. -/
def round2 (n : ℚ) : ℚ := ((jsRound (n * 100) : ℤ) : ℚ) / 100

/-- Source `round2` applied to a JavaScript number (used for the reported
BMI, which can be NaN). -/
def JsNum.round2 (n : JsNum) : JsNum :=
  ((n.mul (.num 100)).round).div (.num 100)

/-- Source `cmToMeters(cm) = cm/100`. -/
def cmToMeters (cm : JsNum) : JsNum := cm.div (.num 100)

/-- The coefficient table (source type `Settings`).  The table only ever
holds finite values, so its fields are rationals. -/
structure Settings where
  baseMale : ℚ
  baseFemale : ℚ
  baseOther : ℚ
  bmiUnder : ℚ
  bmiOver : ℚ
  bmiObese : ℚ
  pancreasYouth : ℚ
  pancreasMiddle : ℚ
  pancreasSenior : ℚ
  ageChild : ℚ
  ageMiddle : ℚ
  ageSenior : ℚ
  actHigh : ℚ
  actLow : ℚ
  ethSouthAsian : ℚ
  ethEastAsian : ℚ
  ethHispanic : ℚ
  ethBlack : ℚ
  clampMin : ℚ
  clampMax : ℚ
deriving DecidableEq, Repr

/-- The sex field of the profile. -/
inductive Sex where
  | male
  | female
  | other
  | unspecified
deriving DecidableEq, Repr

/-- The activity-level field of the profile. -/
inductive Activity where
  | low
  | moderate
  | high
deriving DecidableEq, Repr

/-- The user profile (source type `Onboarding`).  Height and weight are
arbitrary JavaScript numbers since the claims quantify over non-finite and
missing values there (a missing field used in arithmetic behaves as NaN);
the age is finite.  The optional booleans of the source are modelled as
booleans (an absent optional boolean is falsy, exactly like `false`). -/
structure Onboarding where
  name : String
  sex : Sex
  age : ℚ
  heightCm : JsNum
  weightKg : JsNum
  ethnicity : Option String
  activity : Activity
  consentAnalytics : Bool
  useEthnicityAdjustment : Bool
  onboarded : Bool
deriving DecidableEq, Repr

/-- Source `bmiOf(heightCm, weightKg) = weightKg / (h*h)` with
`h = cmToMeters(heightCm)`. -/
def bmiOf (heightCm weightKg : JsNum) : JsNum :=
  weightKg.div ((cmToMeters heightCm).mul (cmToMeters heightCm))

/-- Source `pancreasCapacityFactor(age, bmi, S)`: an age-band factor times a
BMI-band factor, clamped to the fixed interval [0.8, 1.1]. -/
def pancreasCapacityFactor (age : ℚ) (bmi : JsNum) (S : Settings) : ℚ :=
  let ageF : ℚ :=
    if age < 20 then S.pancreasYouth
    else if 40 ≤ age ∧ age < 60 then S.pancreasMiddle
    else if 60 ≤ age then S.pancreasSenior
    else 1
  let bmiF : ℚ :=
    if bmi.ge (.num 25) && bmi.lt (.num 30) then S.bmiOver
    else if bmi.ge (.num 30) then S.bmiObese
    else 1
  clamp (ageF * bmiF) (4/5) (11/10)

/-- Substring test on character lists, modelling a JavaScript regular
expression that matches a fixed word anywhere in the string. -/
def hasSubstr (s pat : List Char) : Bool :=
  (List.range (s.length + 1)).any (fun i => pat.isPrefixOf (s.drop i))

/-- Source `ethnicityFactor(eth, S)`: keyword groups matched
case-insensitively against the lowercased label, first match wins.  An
absent or empty label (both falsy) gives factor 1. -/
def ethnicityFactor (eth : Option String) (S : Settings) : ℚ :=
  match eth with
  | none => 1
  | some s =>
    if s = "" then 1
    else
      let e := s.toList.map Char.toLower
      if hasSubstr e "south asian".toList || hasSubstr e "indian".toList
          || hasSubstr e "pakistani".toList || hasSubstr e "bangladesh".toList
          || hasSubstr e "sri lanka".toList then S.ethSouthAsian
      else if hasSubstr e "east asian".toList || hasSubstr e "chinese".toList
          || hasSubstr e "japanese".toList || hasSubstr e "korean".toList then S.ethEastAsian
      else if hasSubstr e "hispanic".toList || hasSubstr e "latino".toList then S.ethHispanic
      else if hasSubstr e "african".toList || hasSubstr e "black".toList then S.ethBlack
      else 1

/-- Source `activityFactor(level, S)`. -/
def activityFactor (level : Activity) (S : Settings) : ℚ :=
  match level with
  | .high => S.actHigh
  | .moderate => 1
  | .low => S.actLow

/-- The BMI-band adjustment selected inline in `estimateDailySugarLimitG`:
underweight below 18.5, overweight on [25,30), obese at and above 30,
otherwise 1. -/
def bmiAdjOf (bmi : JsNum) (S : Settings) : ℚ :=
  if bmi.lt (.num (37/2)) then S.bmiUnder
  else if bmi.ge (.num 25) && bmi.lt (.num 30) then S.bmiOver
  else if bmi.ge (.num 30) then S.bmiObese
  else 1

/-- The age-band adjustment selected inline in `estimateDailySugarLimitG`. -/
def ageAdjOf (age : ℚ) (S : Settings) : ℚ :=
  if age < 18 then S.ageChild
  else if 45 ≤ age ∧ age < 60 then S.ageMiddle
  else if 60 ≤ age then S.ageSenior
  else 1

/-- The base coefficient selected by sex in `estimateDailySugarLimitG`. -/
def sexBase (user : Onboarding) (S : Settings) : ℚ :=
  match user.sex with
  | .male => S.baseMale
  | .female => S.baseFemale
  | _ => S.baseOther

/-- The factor breakdown returned by the budget model.  All factors after
branch selection are coefficient-table values and hence finite; the raw BMI
can be any JavaScript number. -/
structure Breakdown where
  base : ℚ
  bmiAdj : ℚ
  pancreasAdj : ℚ
  ageAdj : ℚ
  actAdj : ℚ
  ethAdj : ℚ
  bmi : JsNum
deriving DecidableEq, Repr

/-- The budget model result: total limit in grams plus the breakdown. -/
structure BudgetResult where
  total : ℤ
  breakdown : Breakdown
deriving DecidableEq, Repr

/-- Source `estimateDailySugarLimitG(user, S)`: base by sex, times the BMI,
pancreas-capacity, age, activity and (opt-in) ethnicity adjustments, clamped
to the table's clamp range and rounded. -/
def estimateDailySugarLimitG (user : Onboarding) (S : Settings) : BudgetResult :=
  let base := sexBase user S
  let localBmi := bmiOf user.heightCm user.weightKg
  let bmiAdj := bmiAdjOf localBmi S
  let pancreasAdj := pancreasCapacityFactor user.age localBmi S
  let ageAdj := ageAdjOf user.age S
  let actAdj := activityFactor user.activity S
  let ethAdj := if user.useEthnicityAdjustment then ethnicityFactor user.ethnicity S else 1
  let limit := base * bmiAdj * pancreasAdj * ageAdj * actAdj * ethAdj
  let total := jsRound (clamp limit S.clampMin S.clampMax)
  { total := total
    breakdown :=
      { base := base
        bmiAdj := round2 bmiAdj
        pancreasAdj := round2 pancreasAdj
        ageAdj := round2 ageAdj
        actAdj := round2 actAdj
        ethAdj := round2 ethAdj
        bmi := JsNum.round2 localBmi } }

/-- Milliseconds per calendar day. -/
def msPerDay : ℤ := 86400000

/-- Calendar day of an epoch-millisecond timestamp: the source truncates the
timestamp to midnight (`setHours(0,0,0,0)`) and formats the ISO date, which
is floor division by the day length (UTC locale; the ISO day-key string is
modelled by the day number itself, of which the source's chart label
`key.slice(5)` is a display trim). -/
def dayOf (ts : ℤ) : ℤ := ts / msPerDay

/-- A consumption ledger entry (source type `LogEntry`). -/
structure LogEntry where
  id : String
  ts : ℤ
  item : String
  sugarG : ℤ
  context : Option String
deriving DecidableEq, Repr

/-- Source `rollupByDay(logs)`: fold the ledger into a day-keyed total map.
The `Map` is modelled as a total function defaulting to 0, matching the
source's `(map.get(key) || 0)` reads. -/
def rollupByDay (logs : List LogEntry) : ℤ → ℤ :=
  logs.foldl
    (fun map l => Function.update map (dayOf l.ts) (map (dayOf l.ts) + l.sugarG))
    (fun _ => 0)

/-- One element of the 7-day series (source `{ day, sugar, limit, over }`). -/
structure SeriesPoint where
  day : ℤ
  sugar : ℤ
  limit : ℤ
  over : Bool
deriving DecidableEq, Repr

/-- Source `last7DaysSeries(logs, dailyLimit)`: one point per `d = 0..6` for
the day `start + d` with `start = today - 6`, reading the rollup map with
default 0.  The current day is an explicit parameter. -/
def last7DaysSeries (logs : List LogEntry) (dailyLimit : ℤ) (today : ℤ) :
    List SeriesPoint :=
  (List.range 7).map (fun d =>
    let day := today - 6 + (d : ℤ)
    let sugar := rollupByDay logs day
    { day := day, sugar := sugar, limit := dailyLimit,
      over := decide (sugar > dailyLimit) })

/-- The independent today-total of the application (`todaySugar`): sum the
entries whose timestamp lies between local midnight and 23:59:59.999 of the
current day. -/
def todaySugar (logs : List LogEntry) (today : ℤ) : ℤ :=
  ((logs.filter (fun l =>
      decide (today * msPerDay ≤ l.ts ∧ l.ts ≤ today * msPerDay + (msPerDay - 1)))).map
    (fun l => l.sugarG)).sum

/-- Source `activitySugarBonusKcal(kcal)`: 0.5 g per 10 active kcal, zero
below 100 kcal (`!kcal` additionally catches a zero signal), at most 20 g a
day. -/
def activitySugarBonusKcal (kcal : ℚ) : ℤ :=
  if kcal = 0 ∨ kcal < 100 then 0
  else min (jsRound (kcal / 10 * (1/2))) 20

/-- Source `weeklyCappedBonus(last6, today)`: reduce today's bonus to the
headroom remaining out of 60 g after the six prior days. -/
def weeklyCappedBonus (last6 : List ℤ) (today : ℤ) : ℤ :=
  let used := last6.foldl (fun a b => a + b) 0
  let remaining := max 0 (60 - used)
  min today remaining

/-- Source `applyDailyCap(base, bonus)`: the effective limit is capped at
`Math.round(base * 1.3)`. -/
def applyDailyCap (base bonus : ℤ) : ℤ :=
  let softCap := jsRound ((base : ℚ) * (13/10))
  min (base + bonus) softCap

/-- The bonus history produced by running the engine day after day, as the
application does: day `n`'s recorded bonus is `weeklyCappedBonus` of the six
most recent recorded bonuses (absent days read as 0) and day `n`'s day-capped
raw bonus.  `bonusHistoryRun raw n` is the chronological list of the first
`n` recorded bonuses. -/
def bonusHistoryRun (raw : ℕ → ℤ) : ℕ → List ℤ
  | 0 => []
  | n + 1 =>
    let h := bonusHistoryRun raw n
    h ++ [weeklyCappedBonus (h.reverse.take 6) (raw n)]

/-- Split a character stream as the JavaScript `text.split(/\r?\n/)` does:
a line break is a newline optionally preceded by a carriage return. -/
def jsLines : List Char → List (List Char)
  | [] => [[]]
  | '\r' :: '\n' :: rest => [] :: jsLines rest
  | '\n' :: rest => [] :: jsLines rest
  | c :: rest =>
    match jsLines rest with
    | [] => [[c]]
    | line :: ls => (c :: line) :: ls

/-- Split a character stream at every occurrence of the given character,
modelling `line.split(",")`. -/
def splitOnChar (sep : Char) : List Char → List (List Char)
  | [] => [[]]
  | c :: rest =>
    let r := splitOnChar sep rest
    if c = sep then [] :: r
    else
      match r with
      | [] => [[c]]
      | piece :: ps => (c :: piece) :: ps

/-- JavaScript `trim()`: drop leading and trailing whitespace. -/
def jsTrim (s : List Char) : List Char :=
  ((s.dropWhile Char.isWhitespace).reverse.dropWhile Char.isWhitespace).reverse

/-- Source `String(sugarStr).replace(/[^0-9.]/g, "")`: keep only digits and
decimal points. -/
def keepNumericChars (s : List Char) : List Char :=
  s.filter (fun c => c.isDigit || c = '.')

/-- The numeric value of a non-empty all-digit character list. -/
def digitsVal (s : List Char) : ℚ :=
  ((s.foldl (fun n c => 10 * n + (c.toNat - 48)) 0 : ℕ) : ℚ)

/-- Model of JavaScript `Number()` on a string containing only digits and
decimal points (the only strings it is applied to here, after
`keepNumericChars`): `none` models NaN, the empty string is 0, and a single
decimal point may separate the integer and fraction digits. -/
def jsNumber (s : List Char) : Option ℚ :=
  match splitOnChar '.' s with
  | [i] =>
    if i.isEmpty then some 0
    else if i.all Char.isDigit then some (digitsVal i) else none
  | [i, f] =>
    if i.isEmpty ∧ f.isEmpty then none
    else if i.all Char.isDigit ∧ f.all Char.isDigit then
      some (digitsVal i + digitsVal f / (10 : ℚ) ^ f.length)
    else none
  | _ => none

/-- A parsed import row (source `{ ts, item, sugarG }`). -/
structure CsvRow where
  ts : ℤ
  item : String
  sugarG : ℤ
deriving DecidableEq, Repr

/-- The per-row body of the `parseCsv` loop, given the already-split date,
item and sugar cells.  `dateParse` models `Date.parse` (`none` for NaN) and
`now` models `Date.now()`; an empty date cell or an unparseable date falls
back to `now`.  A row with an empty item or a zero/NaN sugar amount yields
nothing. -/
def parseCsvRowCells (dateParse : String → Option ℤ) (now : ℤ)
    (dateStr item sugarStr : List Char) : Option CsvRow :=
  let ts : ℤ := if dateStr.isEmpty then now else (dateParse (String.mk dateStr)).getD now
  match jsNumber (keepNumericChars sugarStr) with
  | none => none
  | some sugarG =>
    if item.isEmpty ∨ sugarG = 0 then none
    else some { ts := ts, item := String.mk (jsTrim item), sugarG := jsRound sugarG }

/-- One iteration of the `parseCsv` loop: split the line at commas, skip it
when there are fewer than two cells, read two cells as (item, sugar) and
three or more as (date, item, sugar). -/
def parseCsvLine (dateParse : String → Option ℤ) (now : ℤ)
    (line : List Char) : Option CsvRow :=
  match splitOnChar ',' line with
  | [] => none
  | [_] => none
  | [item, sugarStr] => parseCsvRowCells dateParse now [] item sugarStr
  | dateStr :: item :: sugarStr :: _ => parseCsvRowCells dateParse now dateStr item sugarStr

/-- The non-blank lines of the raw text, as in the source
(`text.split(/\r?\n/).filter(l => l.trim().length)`). -/
def csvLines (text : String) : List (List Char) :=
  (jsLines text.toList).filter (fun l => !(jsTrim l).isEmpty)

/-- Source `parseCsv(text)`: drop blank lines, skip a first line that looks
like a header (contains "date", "item" or "sugar" case-insensitively), and
run the row loop over the rest. -/
def parseCsv (dateParse : String → Option ℤ) (now : ℤ) (text : String) :
    List CsvRow :=
  match csvLines text with
  | [] => []
  | l0 :: rest =>
    let header := l0.map Char.toLower
    let hasHeader := hasSubstr header "date".toList || hasSubstr header "item".toList
      || hasSubstr header "sugar".toList
    let rows := if hasHeader then rest else l0 :: rest
    rows.filterMap (parseCsvLine dateParse now)

/-- A concrete profile whose weight is present but whose height is missing
(arithmetic on a missing field yields NaN); otherwise the application's
default profile. -/
def nanHeightProfile : Onboarding :=
  { name := "", sex := Sex.unspecified, age := 30, heightCm := JsNum.nan,
    weightKg := JsNum.num 75, ethnicity := some "prefer-not-to-say",
    activity := Activity.moderate, consentAnalytics := false,
    useEthnicityAdjustment := false, onboarded := false }

/-- The application's default coefficient table. -/
def defaultSettings : Settings :=
  { baseMale := 36, baseFemale := 25, baseOther := 30,
    bmiUnder := 105/100, bmiOver := 97/100, bmiObese := 93/100,
    pancreasYouth := 105/100, pancreasMiddle := 95/100, pancreasSenior := 9/10,
    ageChild := 92/100, ageMiddle := 97/100, ageSenior := 92/100,
    actHigh := 11/10, actLow := 95/100,
    ethSouthAsian := 97/100, ethEastAsian := 98/100, ethHispanic := 99/100,
    ethBlack := 99/100, clampMin := 18, clampMax := 42 }

theorem foldl_add_init (l : List ℤ) (a : ℤ) :
    l.foldl (fun x y => x + y) a = a + l.sum := by
  induction l generalizing a with
  | nil => simp
  | cons b bs ih => simp only [List.foldl_cons, List.sum_cons, ih]; ring

theorem foldl_add_eq_sum (l : List ℤ) :
    l.foldl (fun x y => x + y) 0 = l.sum := by
  simpa using foldl_add_init l 0

/-- C1: for a base limit `b ≥ 0` and a bonus `g ≥ 0`, `applyDailyCap b g`
is at least `b`, at most `round(b * 1.3)`, and equals
`min(b + g, round(b * 1.3))`. -/
theorem applyDailyCap_bounds (base bonus : ℤ) (hb : 0 ≤ base) (hg : 0 ≤ bonus) :
    base ≤ applyDailyCap base bonus
    ∧ applyDailyCap base bonus ≤ jsRound ((base : ℚ) * (13/10))
    ∧ applyDailyCap base bonus = min (base + bonus) (jsRound ((base : ℚ) * (13/10))) := by
  have hcap : base ≤ jsRound ((base : ℚ) * (13/10)) := by
    rw [jsRound, Int.le_floor]
    have h0 : (0 : ℚ) ≤ (base : ℚ) := by exact_mod_cast hb
    linarith
  refine ⟨?_, ?_, rfl⟩
  · exact le_min (by omega) hcap
  · exact min_le_right _ _

theorem applyDailyCap_bounds_witness :
    (0 : ℤ) ≤ 30 ∧ (0 : ℤ) ≤ 10
    ∧ (30 ≤ applyDailyCap 30 10
       ∧ applyDailyCap 30 10 ≤ jsRound ((30 : ℚ) * (13/10))
       ∧ applyDailyCap 30 10 = min (30 + 10) (jsRound ((30 : ℚ) * (13/10))))
    ∧ applyDailyCap 30 10 = 39 :=
  ⟨by norm_num, by norm_num, applyDailyCap_bounds 30 10 (by norm_num) (by norm_num),
    by norm_num [applyDailyCap, jsRound]⟩

/-- C2: for every age, every BMI value (including the special values) and
every coefficient table, the pancreas-capacity factor lies in [0.8, 1.1]. -/
theorem pancreasCapacityFactor_bounds (age : ℚ) (bmi : JsNum) (S : Settings) :
    4/5 ≤ pancreasCapacityFactor age bmi S ∧ pancreasCapacityFactor age bmi S ≤ 11/10 :=
  ⟨le_max_left _ _, max_le (by norm_num) (min_le_left _ _)⟩

theorem weeklyCappedBonus_eq (last6 : List ℤ) (today : ℤ) :
    weeklyCappedBonus last6 today = min today (max 0 (60 - last6.sum)) := by
  show min today (max 0 (60 - last6.foldl (fun a b => a + b) 0)) = _
  rw [foldl_add_eq_sum]

/-- C4: the granted bonus is the day-capped raw bonus reduced to the
remaining weekly headroom, `min(today, max(0, 60 - sum of the prior six
days))`; in particular six prior days summing to 58 g and a day-capped
bonus of 20 g grant 2 g. -/
theorem weeklyCappedBonus_spec :
    (∀ (last6 : List ℤ) (today : ℤ),
        weeklyCappedBonus last6 today = min today (max 0 (60 - last6.sum)))
    ∧ weeklyCappedBonus [10, 10, 10, 10, 10, 8] 20 = 2 :=
  ⟨weeklyCappedBonus_eq, by decide⟩

/-- C6: for non-negative energy the day-capped raw bonus is
`round(energy/10 * 0.5)` grams capped at 20, and energy below 100 kcal
yields 0; in particular 99 kcal gives 0 g, 100 kcal gives 5 g and
1000 kcal gives 20 g. -/
theorem activitySugarBonusKcal_spec :
    (∀ kcal : ℚ, 0 ≤ kcal →
        activitySugarBonusKcal kcal
          = if kcal < 100 then 0 else min (jsRound (kcal / 10 * (1/2))) 20)
    ∧ activitySugarBonusKcal 99 = 0
    ∧ activitySugarBonusKcal 100 = 5
    ∧ activitySugarBonusKcal 1000 = 20 := by
  refine ⟨?_, by norm_num [activitySugarBonusKcal], ?_, ?_⟩
  · intro kcal _
    unfold activitySugarBonusKcal
    by_cases h0 : kcal = 0
    · subst h0; norm_num
    · by_cases h1 : kcal < 100 <;> simp [h0, h1]
  · rw [activitySugarBonusKcal]
    have h5 : jsRound (5 : ℚ) = 5 := by norm_num [jsRound]
    norm_num [h5]
  · rw [activitySugarBonusKcal]
    have h50 : jsRound (50 : ℚ) = 50 := by norm_num [jsRound]
    norm_num [h50]

theorem activitySugarBonusKcal_spec_witness :
    (0 : ℚ) ≤ 250
    ∧ activitySugarBonusKcal 250
        = (if (250 : ℚ) < 100 then 0 else min (jsRound ((250 : ℚ) / 10 * (1/2))) 20)
    ∧ activitySugarBonusKcal 250 = 13 := by
  have h := activitySugarBonusKcal_spec.1 250 (by norm_num)
  have hv : jsRound ((25 : ℚ) / 2) = 13 := by norm_num [jsRound]
  refine ⟨by norm_num, h, ?_⟩
  rw [h]
  norm_num [hv]

theorem activitySugarBonusKcal_nonneg (kcal : ℚ) : 0 ≤ activitySugarBonusKcal kcal := by
  unfold activitySugarBonusKcal
  split
  · exact le_rfl
  · rename_i h
    push_neg at h
    refine le_min ?_ (by norm_num)
    rw [jsRound, Int.le_floor]
    have h100 : (100 : ℚ) ≤ kcal := h.2
    push_cast
    linarith

theorem sum_take_succ_le (l : List ℤ) (h : ∀ x ∈ l, 0 ≤ x) (n : ℕ) :
    (l.take n).sum ≤ (l.take (n+1)).sum := by
  rw [List.take_succ, List.sum_append]
  have hx : 0 ≤ (l[n]?.toList).sum := by
    cases hg : l[n]? with
    | none => simp
    | some a => simpa using h a (List.getElem?_mem hg)
  linarith

theorem bonusHistoryRun_invariant (raw : ℕ → ℤ) (hraw : ∀ i, 0 ≤ raw i) (n : ℕ) :
    (∀ x ∈ bonusHistoryRun raw n, 0 ≤ x)
    ∧ ((bonusHistoryRun raw n).reverse.take 7).sum ≤ 60 := by
  induction n with
  | zero => simp [bonusHistoryRun]
  | succ n ih =>
    obtain ⟨hnn, hwin⟩ := ih
    have hrevnn : ∀ x ∈ (bonusHistoryRun raw n).reverse, 0 ≤ x :=
      fun x hx => hnn x (List.mem_reverse.mp hx)
    have hs6 : ((bonusHistoryRun raw n).reverse.take 6).sum ≤ 60 :=
      le_trans (sum_take_succ_le _ hrevnn 6) hwin
    have hg0 : 0 ≤ weeklyCappedBonus ((bonusHistoryRun raw n).reverse.take 6) (raw n) := by
      rw [weeklyCappedBonus_eq]
      exact le_min (hraw n) (le_max_left _ _)
    have hg : weeklyCappedBonus ((bonusHistoryRun raw n).reverse.take 6) (raw n)
        ≤ 60 - ((bonusHistoryRun raw n).reverse.take 6).sum := by
      rw [weeklyCappedBonus_eq]
      refine le_trans (min_le_right _ _) ?_
      rw [max_eq_right (by omega)]
    constructor
    · intro x hx
      rw [bonusHistoryRun] at hx
      rcases List.mem_append.mp hx with hx | hx
      · exact hnn x hx
      · rw [List.mem_singleton] at hx
        subst hx
        exact hg0
    · rw [bonusHistoryRun, List.reverse_append, List.reverse_singleton,
        List.singleton_append, List.take_succ_cons, List.sum_cons]
      omega

/-- C5: when every day's recorded bonus is the one granted by the engine
(the day-capped raw bonus reduced to the headroom left by the six previously
recorded days), the trailing 7-day window of recorded bonuses (today plus
the six prior days) never sums to more than 60 g. -/
theorem weekly_window_never_exceeds_60 (kcal : ℕ → ℚ) (n : ℕ) :
    ((bonusHistoryRun (fun i => activitySugarBonusKcal (kcal i)) (n+1)).reverse.take 7).sum
      ≤ 60 :=
  (bonusHistoryRun_invariant _ (fun i => activitySugarBonusKcal_nonneg (kcal i)) (n+1)).2

/-- C7: the 7-day series always has exactly 7 points, whose day keys are,
oldest first, the 6 days before today followed by today; in particular the
last point's day key is today. -/
theorem last7DaysSeries_spec (logs : List LogEntry) (dailyLimit today : ℤ) :
    (last7DaysSeries logs dailyLimit today).length = 7
    ∧ (last7DaysSeries logs dailyLimit today).map SeriesPoint.day
        = [today - 6, today - 5, today - 4, today - 3, today - 2, today - 1, today]
    ∧ ((last7DaysSeries logs dailyLimit today).map SeriesPoint.day).getLast? = some today := by
  have hmap : (last7DaysSeries logs dailyLimit today).map SeriesPoint.day
      = [today - 6, today - 5, today - 4, today - 3, today - 2, today - 1, today] := by
    unfold last7DaysSeries
    rw [List.map_map]
    simp [List.range_succ]
    omega
  have hlen : (last7DaysSeries logs dailyLimit today).length = 7 := by
    have h2 := congrArg List.length hmap
    simpa using h2
  refine ⟨hlen, hmap, ?_⟩
  rw [hmap]
  rfl

theorem rollup_foldl_apply (logs : List LogEntry) (m : ℤ → ℤ) (k : ℤ) :
    (logs.foldl
        (fun map l => Function.update map (dayOf l.ts) (map (dayOf l.ts) + l.sugarG)) m) k
      = m k + ((logs.filter (fun l => decide (dayOf l.ts = k))).map (fun l => l.sugarG)).sum := by
  induction logs generalizing m with
  | nil => simp
  | cons l ls ih =>
    rw [List.foldl_cons, ih]
    by_cases hd : dayOf l.ts = k
    · subst hd
      simp [List.filter_cons, Function.update_apply]
      ring
    · have hd' : ¬ k = dayOf l.ts := fun hh => hd hh.symm
      simp [List.filter_cons, hd, Function.update_apply, hd']

theorem rollup_apply (logs : List LogEntry) (k : ℤ) :
    rollupByDay logs k
      = ((logs.filter (fun l => decide (dayOf l.ts = k))).map (fun l => l.sugarG)).sum := by
  simpa using rollup_foldl_apply logs (fun _ => 0) k

/-- C8: the application's independent today-total (sum of the entries whose
timestamp falls inside the current day) agrees with the rollup map's value
at today's day key. -/
theorem todaySugar_eq_rollup (logs : List LogEntry) (today : ℤ) :
    todaySugar logs today = rollupByDay logs today := by
  rw [todaySugar, rollup_apply]
  have hfil : logs.filter (fun l =>
        decide (today * msPerDay ≤ l.ts ∧ l.ts ≤ today * msPerDay + (msPerDay - 1)))
      = logs.filter (fun l => decide (dayOf l.ts = today)) := by
    apply List.filter_congr
    intro l _
    apply decide_eq_decide.mpr
    unfold dayOf msPerDay
    omega
  rw [hfil]

/-- C9: the per-day rollup is invariant under permutation of the entry
list: any reordering of the same multiset of entries yields the same total
on every day key. -/
theorem rollupByDay_perm (l₁ l₂ : List LogEntry) (hp : List.Perm l₁ l₂) (k : ℤ) :
    rollupByDay l₁ k = rollupByDay l₂ k := by
  rw [rollup_apply, rollup_apply]
  exact List.Perm.sum_eq ((hp.filter _).map _)

theorem rollupByDay_perm_witness :
    rollupByDay [{ id := "a", ts := 0, item := "x", sugarG := 12, context := none },
        { id := "b", ts := 100, item := "y", sugarG := 5, context := none }] 0
      = rollupByDay [{ id := "b", ts := 100, item := "y", sugarG := 5, context := none },
        { id := "a", ts := 0, item := "x", sugarG := 12, context := none }] 0
    ∧ rollupByDay [{ id := "a", ts := 0, item := "x", sugarG := 12, context := none },
        { id := "b", ts := 100, item := "y", sugarG := 5, context := none }] 0 = 17 :=
  ⟨rollupByDay_perm _ _ (List.Perm.swap _ _ []) 0, by decide⟩

theorem JsNum.div_nan (x : JsNum) : x.div JsNum.nan = JsNum.nan := by
  cases x <;> rfl

theorem JsNum.nan_div (y : JsNum) : JsNum.nan.div y = JsNum.nan := by
  cases y <;> rfl

theorem bmiOf_nan (h w : JsNum) (hc : h = JsNum.nan ∨ w = JsNum.nan) :
    bmiOf h w = JsNum.nan := by
  rcases hc with hc | hc <;> subst hc
  · have h1 : cmToMeters JsNum.nan = JsNum.nan := rfl
    rw [bmiOf, h1]
    have h2 : JsNum.nan.mul JsNum.nan = JsNum.nan := rfl
    rw [h2]
    exact JsNum.div_nan w
  · rw [bmiOf]
    exact JsNum.nan_div _

theorem bmiAdjOf_nan (S : Settings) : bmiAdjOf JsNum.nan S = 1 := rfl

/-- C3 counterexample: on the application's default profile with a missing
(NaN) height, the BMI is indeed NaN but the model's total is the finite
value 30, not NaN/undefined; and for an Infinity height the BMI is not NaN
at all but 0, so non-finite inputs do not make the output non-finite. -/
theorem nan_profile_finite_total :
    bmiOf nanHeightProfile.heightCm nanHeightProfile.weightKg = JsNum.nan
    ∧ (estimateDailySugarLimitG nanHeightProfile defaultSettings).total = 30
    ∧ bmiOf JsNum.inf (JsNum.num 75) = JsNum.num 0 := by
  refine ⟨rfl, ?_, by norm_num [bmiOf, cmToMeters, JsNum.div, JsNum.mul]⟩
  show jsRound (clamp (sexBase nanHeightProfile defaultSettings
      * bmiAdjOf (bmiOf nanHeightProfile.heightCm nanHeightProfile.weightKg) defaultSettings
      * pancreasCapacityFactor nanHeightProfile.age
          (bmiOf nanHeightProfile.heightCm nanHeightProfile.weightKg) defaultSettings
      * ageAdjOf nanHeightProfile.age defaultSettings
      * activityFactor nanHeightProfile.activity defaultSettings
      * (if nanHeightProfile.useEthnicityAdjustment then
          ethnicityFactor nanHeightProfile.ethnicity defaultSettings else 1))
      defaultSettings.clampMin defaultSettings.clampMax) = 30
  norm_num [nanHeightProfile, defaultSettings, sexBase, bmiAdjOf, bmiOf, cmToMeters,
    JsNum.div, JsNum.mul, JsNum.lt, JsNum.ge, pancreasCapacityFactor, ageAdjOf,
    activityFactor, clamp, jsRound, min_def, max_def]

/-- C3 (amended): a NaN (missing) height or weight makes the BMI NaN, but
the NaN does not propagate to the result: every BMI-band comparison on NaN
is false, so the BMI adjustment is 1 and the pancreas factor uses only its
age band, and the returned total is the finite value computed from the
remaining factors; only the reported breakdown BMI is NaN. -/
theorem nan_bmi_not_propagated (user : Onboarding) (S : Settings)
    (h : user.heightCm = JsNum.nan ∨ user.weightKg = JsNum.nan) :
    bmiOf user.heightCm user.weightKg = JsNum.nan
    ∧ (estimateDailySugarLimitG user S).breakdown.bmi = JsNum.nan
    ∧ (estimateDailySugarLimitG user S).breakdown.bmiAdj = 1
    ∧ (estimateDailySugarLimitG user S).total
        = jsRound (clamp
            (sexBase user S * 1 * pancreasCapacityFactor user.age JsNum.nan S
              * ageAdjOf user.age S * activityFactor user.activity S
              * (if user.useEthnicityAdjustment then ethnicityFactor user.ethnicity S else 1))
            S.clampMin S.clampMax) := by
  have hb : bmiOf user.heightCm user.weightKg = JsNum.nan := bmiOf_nan _ _ h
  refine ⟨hb, ?_, ?_, ?_⟩
  · show JsNum.round2 (bmiOf user.heightCm user.weightKg) = JsNum.nan
    rw [hb]
    rfl
  · show round2 (bmiAdjOf (bmiOf user.heightCm user.weightKg) S) = 1
    rw [hb, bmiAdjOf_nan]
    norm_num [round2, jsRound]
  · show jsRound (clamp
        (sexBase user S * bmiAdjOf (bmiOf user.heightCm user.weightKg) S
          * pancreasCapacityFactor user.age (bmiOf user.heightCm user.weightKg) S
          * ageAdjOf user.age S * activityFactor user.activity S
          * (if user.useEthnicityAdjustment then ethnicityFactor user.ethnicity S else 1))
        S.clampMin S.clampMax) = _
    rw [hb, bmiAdjOf_nan]

theorem nan_bmi_not_propagated_witness :
    (nanHeightProfile.heightCm = JsNum.nan ∨ nanHeightProfile.weightKg = JsNum.nan)
    ∧ (estimateDailySugarLimitG nanHeightProfile defaultSettings).breakdown.bmi = JsNum.nan
    ∧ (estimateDailySugarLimitG nanHeightProfile defaultSettings).breakdown.bmiAdj = 1 :=
  ⟨Or.inl rfl,
    (nan_bmi_not_propagated nanHeightProfile defaultSettings (Or.inl rfl)).2.1,
    (nan_bmi_not_propagated nanHeightProfile defaultSettings (Or.inl rfl)).2.2.1⟩

/-- C10: the CSV normaliser is total and returns at most one row per input
line; a row whose item is empty or whose sugar amount parses to zero or NaN
is dropped; in particular the single line `Water,0` yields no rows. -/
theorem parseCsv_spec :
    (∀ (dateParse : String → Option ℤ) (now : ℤ) (text : String),
        (parseCsv dateParse now text).length ≤ (jsLines text.toList).length)
    ∧ (∀ (dateParse : String → Option ℤ) (now : ℤ) (dateStr item sugarStr : List Char),
        item.isEmpty = true ∨ jsNumber (keepNumericChars sugarStr) = none
          ∨ jsNumber (keepNumericChars sugarStr) = some 0 →
        parseCsvRowCells dateParse now dateStr item sugarStr = none)
    ∧ (∀ (dateParse : String → Option ℤ) (now : ℤ),
        parseCsv dateParse now "Water,0" = []) := by
  refine ⟨?_, ?_, ?_⟩
  · intro dp now text
    have hfil : (csvLines text).length ≤ (jsLines text.toList).length := by
      unfold csvLines
      exact List.length_filter_le _ _
    unfold parseCsv
    cases hcl : csvLines text with
    | nil => simp
    | cons l0 rest =>
      rw [hcl] at hfil
      refine le_trans ?_ hfil
      refine le_trans (List.length_filterMap_le _ _) ?_
      split
      · simp
      · exact le_rfl
  · intro dp now dateStr item sugarStr h
    unfold parseCsvRowCells
    rcases hjs : jsNumber (keepNumericChars sugarStr) with _ | q
    · rfl
    · rcases h with h | h | h
      · simp [h]
      · rw [hjs] at h
        cases h
      · rw [hjs] at h
        injection h with h
        simp [h]
  · intro dp now
    rfl

theorem parseCsv_spec_witness :
    jsNumber (keepNumericChars ("0".toList)) = some 0
    ∧ parseCsvRowCells (fun _ => none) 0 [] ("Water".toList) ("0".toList) = none
    ∧ parseCsv (fun _ => none) 0 "Water,0" = [] :=
  ⟨by decide,
    parseCsv_spec.2.1 (fun _ => none) 0 [] _ _ (Or.inr (Or.inr (by decide))),
    parseCsv_spec.2.2 (fun _ => none) 0⟩

end NoSugar
